import Mathlib

/-!
Shallow embedding of `src/ivobject/ivobject.py` (the `ValueObject` base type):
Python values, the construction pipeline of `ValueObject.__new__`, the
immutability interception of `__setattr__`, the invariant discovery and
execution machinery, and equality / representation / hashing.
-/

set_option autoImplicit false

namespace IVObject

/-- Python runtime values, restricted to the kinds the value-object mechanism
manipulates: the `None` sentinel, booleans, integers, strings, mutable lists,
sets (their entries listed in the fixed iteration order the runtime exposes),
tuples, mutable dicts and the `ImmutableDict` subtype defined by the source. -/
inductive PyVal where
  | none : PyVal
  | bool : Bool → PyVal
  | int : Int → PyVal
  | str : String → PyVal
  | list : List PyVal → PyVal
  | set : List PyVal → PyVal
  | tuple : List PyVal → PyVal
  | dict : List (PyVal × PyVal) → PyVal
  | immutableDict : List (PyVal × PyVal) → PyVal

mutual

/-- Structural equality of Python values (the `==` the runtime applies to the
value kinds of the model). -/
def PyVal.beq : PyVal → PyVal → Bool
  | .none, .none => true
  | .bool a, .bool b => a == b
  | .int a, .int b => a == b
  | .str a, .str b => a == b
  | .list xs, .list ys => PyVal.beqList xs ys
  | .set xs, .set ys => PyVal.beqList xs ys
  | .tuple xs, .tuple ys => PyVal.beqList xs ys
  | .dict es, .dict fs => PyVal.beqEntries es fs
  | .immutableDict es, .immutableDict fs => PyVal.beqEntries es fs
  | _, _ => false

/-- Elementwise structural equality of value sequences. -/
def PyVal.beqList : List PyVal → List PyVal → Bool
  | [], [] => true
  | x :: xs, y :: ys => PyVal.beq x y && PyVal.beqList xs ys
  | _, _ => false

/-- Entrywise structural equality of key/value pair sequences. -/
def PyVal.beqEntries : List (PyVal × PyVal) → List (PyVal × PyVal) → Bool
  | [], [] => true
  | e :: es, f :: fs => PyVal.beq e.1 f.1 && PyVal.beq e.2 f.2 && PyVal.beqEntries es fs
  | _, _ => false

end
mutual

theorem PyVal.beq_refl : ∀ (a : PyVal), PyVal.beq a a = true
  | .none => rfl
  | .bool a => by simp [PyVal.beq]
  | .int a => by simp [PyVal.beq]
  | .str a => by simp [PyVal.beq]
  | .list xs => by simp only [PyVal.beq]; exact PyVal.beqList_refl xs
  | .set xs => by simp only [PyVal.beq]; exact PyVal.beqList_refl xs
  | .tuple xs => by simp only [PyVal.beq]; exact PyVal.beqList_refl xs
  | .dict es => by simp only [PyVal.beq]; exact PyVal.beqEntries_refl es
  | .immutableDict es => by simp only [PyVal.beq]; exact PyVal.beqEntries_refl es

theorem PyVal.beqList_refl : ∀ (xs : List PyVal), PyVal.beqList xs xs = true
  | [] => rfl
  | x :: xs => by
    simp only [PyVal.beqList, Bool.and_eq_true]
    exact ⟨PyVal.beq_refl x, PyVal.beqList_refl xs⟩

theorem PyVal.beqEntries_refl :
    ∀ (es : List (PyVal × PyVal)), PyVal.beqEntries es es = true
  | [] => rfl
  | e :: es => by
    simp only [PyVal.beqEntries, Bool.and_eq_true]
    exact ⟨⟨PyVal.beq_refl e.1, PyVal.beq_refl e.2⟩, PyVal.beqEntries_refl es⟩

end
mutual

theorem PyVal.beq_sound : ∀ (a b : PyVal), PyVal.beq a b = true → a = b
  | .none, b, h => by cases b <;> simp_all [PyVal.beq]
  | .bool a, b, h => by cases b <;> simp_all [PyVal.beq]
  | .int a, b, h => by cases b <;> simp_all [PyVal.beq]
  | .str a, b, h => by cases b <;> simp_all [PyVal.beq]
  | .list xs, b, h => by
    cases b <;> simp only [PyVal.beq] at h <;>
      first
      | exact absurd h Bool.false_ne_true
      | exact congrArg PyVal.list (PyVal.beqList_sound xs _ h)
  | .set xs, b, h => by
    cases b <;> simp only [PyVal.beq] at h <;>
      first
      | exact absurd h Bool.false_ne_true
      | exact congrArg PyVal.set (PyVal.beqList_sound xs _ h)
  | .tuple xs, b, h => by
    cases b <;> simp only [PyVal.beq] at h <;>
      first
      | exact absurd h Bool.false_ne_true
      | exact congrArg PyVal.tuple (PyVal.beqList_sound xs _ h)
  | .dict es, b, h => by
    cases b <;> simp only [PyVal.beq] at h <;>
      first
      | exact absurd h Bool.false_ne_true
      | exact congrArg PyVal.dict (PyVal.beqEntries_sound es _ h)
  | .immutableDict es, b, h => by
    cases b <;> simp only [PyVal.beq] at h <;>
      first
      | exact absurd h Bool.false_ne_true
      | exact congrArg PyVal.immutableDict (PyVal.beqEntries_sound es _ h)

theorem PyVal.beqList_sound :
    ∀ (xs ys : List PyVal), PyVal.beqList xs ys = true → xs = ys
  | [], [], _ => rfl
  | [], _ :: _, h => by simp [PyVal.beqList] at h
  | _ :: _, [], h => by simp [PyVal.beqList] at h
  | x :: xs, y :: ys, h => by
    simp only [PyVal.beqList, Bool.and_eq_true] at h
    rw [PyVal.beq_sound x y h.1, PyVal.beqList_sound xs ys h.2]

theorem PyVal.beqEntries_sound :
    ∀ (es fs : List (PyVal × PyVal)), PyVal.beqEntries es fs = true → es = fs
  | [], [], _ => rfl
  | [], _ :: _, h => by simp [PyVal.beqEntries] at h
  | _ :: _, [], h => by simp [PyVal.beqEntries] at h
  | e :: es, f :: fs, h => by
    simp only [PyVal.beqEntries, Bool.and_eq_true] at h
    have h1 := PyVal.beq_sound e.1 f.1 h.1.1
    have h2 := PyVal.beq_sound e.2 f.2 h.1.2
    have h3 := PyVal.beqEntries_sound es fs h.2
    cases e; cases f
    simp_all

end
instance : DecidableEq PyVal := fun a b =>
  if h : PyVal.beq a b = true then
    Decidable.isTrue (PyVal.beq_sound a b h)
  else
    Decidable.isFalse (fun he => h (he ▸ PyVal.beq_refl a))

/-- The error kinds the source raises.  The first five mirror the exception
classes imported from the package (`NotDeclaredArgsException`,
`ArgWithoutValueException`, `ViolatedInvariantException`,
`InvariantReturnValueException`, `CannotBeChangeException`); the last two model
the Python built-in `AttributeError` and `TypeError` raised by the runtime
itself (missing attribute / unsupported item assignment). -/
inductive PyError where
  | notDeclaredArgs : PyError
  | argWithoutValue : String → PyError
  | violatedInvariant : String → PyError
  | invariantReturnValue : PyError
  | cannotBeChange : PyError
  | attributeError : PyError
  | typeError : PyError
  deriving DecidableEq, Repr

/-- An instance `__dict__`: attribute names mapped to values, in insertion
order, exactly as a CPython dict stores them. -/
abbrev StrDict := List (String × PyVal)

/-- First-match lookup, the semantics of reading `d[k]` / `getattr`:
a CPython dict holds at most one entry per key, so the first match is the
binding. -/
def pyLookup (d : StrDict) (k : String) : Option PyVal :=
  match d with
  | [] => Option.none
  | kv :: rest => if kv.1 = k then Option.some kv.2 else pyLookup rest k

/-- `d[k] = v` on a CPython dict: replace the value in place when the key is
present (insertion order kept), otherwise append the new entry at the end. -/
def pyDictInsert (d : StrDict) (k : String) (v : PyVal) : StrDict :=
  if d.any (fun kv => kv.1 = k) then
    d.map (fun kv => if kv.1 = k then (k, v) else kv)
  else
    d ++ [(k, v)]

/-- `d.update(o)`: insert every entry of `o` into `d`, in `o` order. -/
def pyDictUpdate (d : StrDict) (o : List (String × PyVal)) : StrDict :=
  o.foldl (fun acc kv => pyDictInsert acc kv.1 kv.2) d

/-- `dict(pairs)`: build a dict by inserting the pairs in order into an empty
dict, so a later pair with the same key wins. -/
def pyDictOf (pairs : List (String × PyVal)) : StrDict :=
  pyDictUpdate [] pairs

/-- Last-match lookup over a raw pair list: the binding that survives when the
list is poured into a dict. -/
def pyLookupLast (l : List (String × PyVal)) (k : String) : Option PyVal :=
  l.foldl (fun acc kv => if kv.1 = k then Option.some kv.2 else acc) Option.none

/-- `del d[k]` at the dict level: drop the entry with that key. -/
def pyDictErase (d : StrDict) (k : String) : StrDict :=
  d.filter (fun kv => kv.1 ≠ k)

/-- The keys of a dict, in order. -/
def pyKeys (d : StrDict) : List String :=
  d.map Prod.fst

/-- CPython dict equality (`d == e`): every entry of each dict is present with
the same value in the other, which amounts to equal key sets with equal
values. -/
def pyDictBeq (d e : StrDict) : Bool :=
  d.all (fun kv => decide (pyLookup e kv.1 = Option.some kv.2)) &&
    e.all (fun kv => decide (pyLookup d kv.1 = Option.some kv.2))

/-- Python substring test `needle in haystack`. -/
def pyIn (needle haystack : String) : Bool :=
  decide (List.IsInfix needle.toList haystack.toList)

/-- Python `s.replace(Char.ofNat 95, Char.ofNat 32)` as the source applies it to
invariant names: render every underscore as a space. -/
def pyReplaceUnderscores (s : String) : String :=
  (s.toList.map (fun c => if c = '_' then ' ' else c)).asString

/-- The per-argument sanitization the pipeline applies (source lines 78-98):
a dict argument is copied into an `ImmutableDict` with the same entries
(`ImmutableDict` is itself a dict, so it is re-wrapped unchanged), a list or a
set argument becomes a tuple of its elements in iteration order, and every
other value passes through untouched.  Only the outermost constructor is
inspected. -/
def sanitize : PyVal → PyVal
  | .dict es => .immutableDict es
  | .immutableDict es => .immutableDict es
  | .list xs => .tuple xs
  | .set xs => .tuple xs
  | v => v

/-- `ArgsSpec`: the introspected constructor signature — the declared
parameter names in order (the implicit self-reference at the head), the
defaults carried by the trailing parameters, and whether a catch-all keyword
parameter is declared. -/
structure ArgsSpec where
  args : List String
  defaults : List PyVal
  varkw : Bool

/-- A member of a concrete class as `inspect.getmembers` sees it: the
attribute name it is stored under, the string rendering `str(method)` used by
the discovery predicates, and the behaviour of calling it with the bound
instance (the source calls each invariant as `invariant(self, self)`; the
model passes the instance `__dict__` once). -/
structure Member where
  name : String
  text : String
  fn : StrDict → PyVal

/-- A concrete value-object subtype: its name, its constructor signature
(`Option.none` when `inspect` cannot introspect it and raises `TypeError`),
and its members in the sorted order `inspect.getmembers` enumerates them. -/
structure ClassDef where
  name : String
  sig : Option ArgsSpec
  members : List Member

/-- `MIN_NUMBER_ARGS` from the source. -/
def MIN_NUMBER_ARGS : Nat := 1

/-- `is_invariant_method_with_name` (source lines 116-120): the marker string
occurs in `str(method)` and the member is not the constructor. -/
def is_invariant_method_with_name (m : Member) (marker : String) : Bool :=
  pyIn marker m.text && !(pyIn "__init__" m.text)

/-- `is_invariant` (source lines 122-123): general-invariant discovery
predicate, marker `invariant_fn`. -/
def is_invariant (m : Member) : Bool :=
  is_invariant_method_with_name m "invariant_fn"

/-- `is_param_invariant` (source lines 125-126): parameter-invariant discovery
predicate, marker `param_invariant_fn`. -/
def is_param_invariant (m : Member) : Bool :=
  is_invariant_method_with_name m "param_invariant_fn"

/-- `obtain_invariants` (source lines 128-134): the members matching the
parameter-invariant predicate, followed by the members matching the
general-invariant predicate, each group in `getmembers` order. -/
def obtain_invariants (cls : ClassDef) : List Member :=
  cls.members.filter is_param_invariant ++ cls.members.filter is_invariant

/-- `invariant_execute` (source lines 108-114): call the invariant on the
bound instance; a non-boolean result is an `InvariantReturnValueException`,
otherwise the boolean is returned. -/
def invariant_execute (m : Member) (d : StrDict) : Except PyError Bool :=
  match m.fn d with
  | .bool b => .ok b
  | _ => .error .invariantReturnValue

/-- The message of a `ViolatedInvariantException` (source lines 103-106):
the concrete type name and the invariant name with underscores rendered as
spaces. -/
def violation_message (clsName invName : String) : String :=
  "Value in " ++ clsName ++ " violates \"" ++ pyReplaceUnderscores invName ++
    "\" invariant rule"

/-- The loop body of `check_invariants` (source lines 100-106) over an
explicit list of discovered invariants: execute each in order, stopping at the
first malformed result or the first `false`. -/
def check_invariants_list (clsName : String) (d : StrDict) :
    List Member → Except PyError Unit
  | [] => .ok ()
  | m :: rest =>
    match invariant_execute m d with
    | .error e => .error e
    | .ok true => check_invariants_list clsName d rest
    | .ok false => .error (.violatedInvariant (violation_message clsName m.name))

/-- `check_invariants` (source lines 100-106): run every discovered invariant
against the bound instance. -/
def check_invariants (cls : ClassDef) (d : StrDict) : Except PyError Unit :=
  check_invariants_list cls.name d (obtain_invariants cls)

/-- `check_class_initialization` (source lines 62-76): a constructor with at
most the implicit self-reference has no declared fields; a `None` among the
positional arguments or among the named-argument values is an argument
without a value. -/
def check_class_initialization (cls : ClassDef) (sp : ArgsSpec)
    (args : List PyVal) (kwargs : StrDict) : Except PyError Unit :=
  if sp.args.length ≤ MIN_NUMBER_ARGS then
    .error .notDeclaredArgs
  else if args.any (fun a => decide (a = PyVal.none)) then
    .error (.argWithoutValue ("Missing value for " ++ cls.name))
  else if kwargs.any (fun kv => decide (kv.2 = PyVal.none)) then
    .error (.argWithoutValue ("Missing value for " ++ cls.name))
  else
    .ok ()

/-- `replace_mutable_kwargs_with_immutable_types` (source lines 78-83):
sanitize every named-argument value in place. -/
def replace_mutable_kwargs_with_immutable_types (kwargs : StrDict) : StrDict :=
  kwargs.map (fun kv => (kv.1, sanitize kv.2))

/-- `assign_instance_arguments` (source lines 85-98): seed the instance
`__dict__` with the declared defaults (the trailing parameters, zipped from
the right), then pour in one dict built from the positional arguments —
sanitized and zipped with the declared names after the self-reference —
followed by the (already sanitized) named arguments, so that a named argument
wins over a positional binding of the same name, and both win over a
default. -/
def assign_instance_arguments (sp : ArgsSpec) (args : List PyVal)
    (kwargs : StrDict) : StrDict :=
  pyDictUpdate (pyDictOf ((sp.args.drop 1).reverse.zip sp.defaults.reverse))
    (pyDictOf (((sp.args.drop 1).zip (args.map sanitize)) ++ kwargs))

/-- A fully constructed value-object instance: its concrete type name, the
declared parameter names of that type (for `__repr__`), and its `__dict__`. -/
structure Instance where
  clsName : String
  specArgs : List String
  fields : StrDict
  deriving DecidableEq

/-- `ValueObject.__new__` (source lines 58-141): introspect the signature
(`TypeError` becomes `NotDeclaredArgsException`), validate, sanitize the named
arguments, bind the fields, check the invariants, and return the bound
instance. -/
def construct (cls : ClassDef) (args : List PyVal) (kwargs : StrDict) :
    Except PyError Instance :=
  match cls.sig with
  | Option.none => .error .notDeclaredArgs
  | Option.some sp =>
    match check_class_initialization cls sp args kwargs with
    | .error e => .error e
    | .ok _ =>
      match check_invariants cls (assign_instance_arguments sp args
          (replace_mutable_kwargs_with_immutable_types kwargs)) with
      | .error e => .error e
      | .ok _ => .ok ⟨cls.name, sp.args, assign_instance_arguments sp args
          (replace_mutable_kwargs_with_immutable_types kwargs)⟩

namespace ValueObject

/-- `ValueObject.__setattr__` (source lines 143-144): every attribute
assignment on a constructed instance raises `CannotBeChangeException`
unconditionally, so no new instance state can ever be produced. -/
def setattr (_self : Instance) (_name : String) (_value : PyVal) :
    Except PyError Instance :=
  .error .cannotBeChange

/-- Attribute deletion on a constructed instance.  The source defines no
`__delattr__`, so `del obj.name` falls through to the default object
behaviour: remove the attribute from the instance `__dict__` when present,
raise `AttributeError` otherwise. -/
def delattr (self : Instance) (name : String) : Except PyError Instance :=
  match pyLookup self.fields name with
  | Option.some _ => .ok { self with fields := pyDictErase self.fields name }
  | Option.none => .error .attributeError

/-- `ValueObject.__eq__` (source lines 146-149): `False` against `None`,
otherwise CPython dict equality of the two instance `__dict__`s. -/
def eq (self : Instance) (other : Option Instance) : Bool :=
  match other with
  | Option.none => false
  | Option.some o => pyDictBeq self.fields o.fields

/-- `ValueObject.__ne__` (source lines 151-152): dict inequality of the two
`__dict__`s, with no `None` guard — against `None` the attribute access
`other.__dict__` raises `AttributeError`. -/
def ne (self : Instance) (other : Option Instance) : Except PyError Bool :=
  match other with
  | Option.none => .error .attributeError
  | Option.some o => .ok (!pyDictBeq self.fields o.fields)

end ValueObject

/-- Render a tuple from the rendered forms of its elements, as CPython does:
a one-element tuple carries a trailing comma. -/
def pyTupleRender (rs : List String) : String :=
  match rs with
  | [r] => "(" ++ r ++ ",)"
  | _ => "(" ++ String.intercalate ", " rs ++ ")"

mutual

/-- `repr(v)` of a Python value: the rendering the runtime produces when a
value is embedded in a container or formatted. -/
def pyRepr : PyVal → String
  | .none => "None"
  | .bool b => if b then "True" else "False"
  | .int n => toString n
  | .str s => "\x27" ++ s ++ "\x27"
  | .list xs => "[" ++ String.intercalate ", " (pyReprList xs) ++ "]"
  | .set xs =>
    if xs.isEmpty then "set()"
    else "\x7b" ++ String.intercalate ", " (pyReprList xs) ++ "\x7d"
  | .tuple xs => pyTupleRender (pyReprList xs)
  | .dict es => "\x7b" ++ String.intercalate ", " (pyReprEntries es) ++ "\x7d"
  | .immutableDict es => "\x7b" ++ String.intercalate ", " (pyReprEntries es) ++ "\x7d"

/-- The rendered forms of the elements of a sequence. -/
def pyReprList : List PyVal → List String
  | [] => []
  | x :: xs => pyRepr x :: pyReprList xs

/-- The rendered forms of the entries of a mapping. -/
def pyReprEntries : List (PyVal × PyVal) → List String
  | [] => []
  | e :: es => (pyRepr e.1 ++ ": " ++ pyRepr e.2) :: pyReprEntries es

end

/-- `str(v)`: like `repr(v)` except that a string renders as itself, which is
what `"...".format(value)` applies to each formatted value. -/
def pyStr : PyVal → String
  | .str s => s
  | v => pyRepr v

/-- Executable stand-in for the hash CPython computes on a string: a
deterministic function of the characters.  The source feeds the canonical
representation string to the built-in `hash`; every property proved below
depends only on it being a function of that string, and every disproved
collision is also a non-collision of the real randomized hash with
overwhelming probability. -/
def pyStrHash (s : String) : Nat :=
  s.toList.foldl (fun h c => h * 1000003 + c.toNat + 1) 0

/-- `getattr(self, name)`: read an attribute out of the instance `__dict__`,
raising `AttributeError` when it is absent. -/
def pyGetattr (d : StrDict) (a : String) : Except PyError PyVal :=
  match pyLookup d a with
  | Option.some v => .ok v
  | Option.none => .error .attributeError

/-- The `field=value` fragments of `ValueObject.__repr__` (source line 159):
one fragment per declared parameter after the self-reference, each formatting
`getattr(self, arg)` with `str`. -/
def reprParts (d : StrDict) : List String → Except PyError (List String)
  | [] => .ok []
  | a :: rest =>
    match pyGetattr d a with
    | .error e => .error e
    | .ok v =>
      match reprParts d rest with
      | .error e => .error e
      | .ok parts => .ok ((a ++ "=" ++ pyStr v) :: parts)

/-- `ValueObject.__repr__` (source lines 157-161): the concrete type name
followed by the `field=value` fragments in declared-parameter order. -/
def ValueObject.repr (self : Instance) : Except PyError String :=
  match reprParts self.fields (self.specArgs.drop 1) with
  | .error e => .error e
  | .ok parts =>
    .ok (self.clsName ++ "(" ++ String.intercalate ", " parts ++ ")")

/-- `ValueObject.hash` / `__hash__` (source lines 163-168): the hash of the
canonical representation string. -/
def ValueObject.hash (self : Instance) : Except PyError Nat :=
  match ValueObject.repr self with
  | .error e => .error e
  | .ok s => .ok (pyStrHash s)

/-- The mutation operations a caller can attempt on a mapping, mirroring the
seven method names `ImmutableDict` overrides (source lines 16-25). -/
inductive DictMutOp where
  | setitem : PyVal → PyVal → DictMutOp
  | delitem : PyVal → DictMutOp
  | clear : DictMutOp
  | update : List (PyVal × PyVal) → DictMutOp
  | setdefault : PyVal → PyVal → DictMutOp
  | pop : PyVal → DictMutOp
  | popitem : DictMutOp

/-- `ImmutableDict` mutation (source lines 16-25): every one of the seven
overridden operations is bound to `__immutable`, which raises
`CannotBeChangeException` regardless of its arguments. -/
def immutableDict_mutate (_es : List (PyVal × PyVal)) (_op : DictMutOp) :
    Except PyError (List (PyVal × PyVal)) :=
  .error .cannotBeChange

/-- The mutation operations a caller can attempt on a sequence: item
assignment and deletion, plus the mutating method names lists and sets
carry. -/
inductive SeqMutOp where
  | setitem : Nat → PyVal → SeqMutOp
  | delitem : Nat → SeqMutOp
  | append : PyVal → SeqMutOp
  | extend : List PyVal → SeqMutOp
  | insert : Nat → PyVal → SeqMutOp
  | remove : PyVal → SeqMutOp
  | pop : SeqMutOp
  | clear : SeqMutOp

/-- Mutation attempts on the built-in tuples the sanitization substitutes for
lists and sets: CPython tuples do not support item assignment or deletion
(`TypeError`) and do not carry any of the mutating methods
(`AttributeError`).  None of these failures is the `CannotBeChangeException`
immutability error of the source. -/
def tuple_mutate (_xs : List PyVal) (op : SeqMutOp) :
    Except PyError (List PyVal) :=
  match op with
  | .setitem _ _ => .error .typeError
  | .delitem _ => .error .typeError
  | _ => .error .attributeError

mutual

/-- Formalization of the spec notion of a deeply non-mutable value: no
mutable container (list, set or plain dict) occurs anywhere inside it. -/
def deeplyImmutable : PyVal → Bool
  | .none => true
  | .bool _ => true
  | .int _ => true
  | .str _ => true
  | .list _ => false
  | .set _ => false
  | .dict _ => false
  | .tuple xs => deeplyImmutableList xs
  | .immutableDict es => deeplyImmutableEntries es

/-- Deep non-mutability of every element of a sequence. -/
def deeplyImmutableList : List PyVal → Bool
  | [] => true
  | x :: xs => deeplyImmutable x && deeplyImmutableList xs

/-- Deep non-mutability of every entry of a mapping. -/
def deeplyImmutableEntries : List (PyVal × PyVal) → Bool
  | [] => true
  | e :: es => deeplyImmutable e.1 && deeplyImmutable e.2 && deeplyImmutableEntries es

end

/-- Left-biased choice on optional values, used to state lookup facts about
layered dictionaries. -/
def pyOr (a b : Option PyVal) : Option PyVal :=
  match a with
  | Option.some v => Option.some v
  | Option.none => b

theorem pyOr_none_right (a : Option PyVal) : pyOr a Option.none = a := by
  cases a <;> rfl

theorem pyOr_assoc (a b c : Option PyVal) :
    pyOr (pyOr a b) c = pyOr a (pyOr b c) := by
  cases a <;> rfl

theorem pyLookup_append (a b : StrDict) (n : String) :
    pyLookup (a ++ b) n = pyOr (pyLookup a n) (pyLookup b n) := by
  induction a with
  | nil => rfl
  | cons kv t ih =>
    by_cases h : kv.1 = n
    · simp [pyLookup, h, pyOr]
    · simp [pyLookup, h, ih]

theorem pyLookupLast_aux (t : List (String × PyVal)) (n : String) :
    ∀ (init : Option PyVal),
      List.foldl (fun acc kv => if kv.1 = n then Option.some kv.2 else acc) init t =
        pyOr (pyLookupLast t n) init := by
  induction t with
  | nil => intro init; cases init <;> rfl
  | cons kv t ih =>
    intro init
    rw [List.foldl_cons, ih]
    have h1 : pyLookupLast (kv :: t) n =
        pyOr (pyLookupLast t n) (if kv.1 = n then Option.some kv.2 else Option.none) := by
      show List.foldl (fun acc kv => if kv.1 = n then Option.some kv.2 else acc)
        (if kv.1 = n then Option.some kv.2 else Option.none) t = _
      rw [ih]
    rw [h1, pyOr_assoc]
    by_cases h : kv.1 = n <;> simp [h, pyOr]

theorem pyLookupLast_cons (kv : String × PyVal) (t : List (String × PyVal)) (n : String) :
    pyLookupLast (kv :: t) n =
      pyOr (pyLookupLast t n) (if kv.1 = n then Option.some kv.2 else Option.none) := by
  show List.foldl (fun acc kv => if kv.1 = n then Option.some kv.2 else acc)
    (if kv.1 = n then Option.some kv.2 else Option.none) t = _
  rw [pyLookupLast_aux]

theorem pyLookupLast_append (a b : List (String × PyVal)) (n : String) :
    pyLookupLast (a ++ b) n = pyOr (pyLookupLast b n) (pyLookupLast a n) := by
  induction a with
  | nil => rw [List.nil_append]; exact (pyOr_none_right _).symm
  | cons kv t ih =>
    rw [List.cons_append, pyLookupLast_cons, ih, pyOr_assoc, ← pyLookupLast_cons]

theorem pyLookupLast_map_sanitize (l : StrDict) (n : String) :
    pyLookupLast (l.map (fun kv => (kv.1, sanitize kv.2))) n =
      Option.map sanitize (pyLookupLast l n) := by
  induction l with
  | nil => rfl
  | cons kv t ih =>
    rw [List.map_cons, pyLookupLast_cons, pyLookupLast_cons, ih]
    cases hl : pyLookupLast t n <;> by_cases h : kv.1 = n <;> simp [pyOr, h]

theorem pyKeys_cons (kv : String × PyVal) (t : StrDict) :
    pyKeys (kv :: t) = kv.1 :: pyKeys t := rfl

theorem pyLookup_eq_none_of_not_mem (d : StrDict) (n : String)
    (h : n ∉ pyKeys d) : pyLookup d n = Option.none := by
  induction d with
  | nil => rfl
  | cons kv t ih =>
    rw [pyKeys_cons] at h
    have h1 : kv.1 ≠ n := fun hh => h (by rw [← hh]; exact List.mem_cons_self _ _)
    have h2 : n ∉ pyKeys t := fun hh => h (List.mem_cons_of_mem _ hh)
    simp [pyLookup, h1, ih h2]

theorem pyLookupLast_eq_none_of_not_mem (d : StrDict) (n : String)
    (h : n ∉ pyKeys d) : pyLookupLast d n = Option.none := by
  induction d with
  | nil => rfl
  | cons kv t ih =>
    rw [pyKeys_cons] at h
    have h1 : kv.1 ≠ n := fun hh => h (by rw [← hh]; exact List.mem_cons_self _ _)
    have h2 : n ∉ pyKeys t := fun hh => h (List.mem_cons_of_mem _ hh)
    rw [pyLookupLast_cons, ih h2]
    simp [h1, pyOr]

theorem keys_mem_iff (d : StrDict) (k : String) :
    d.any (fun kv => decide (kv.1 = k)) = true ↔ k ∈ pyKeys d := by
  induction d with
  | nil => simp [pyKeys]
  | cons kv t ih =>
    rw [pyKeys_cons]
    simp only [List.any_cons, Bool.or_eq_true, decide_eq_true_eq, List.mem_cons, ih]
    constructor
    · rintro (hh | hh)
      · exact Or.inl hh.symm
      · exact Or.inr hh
    · rintro (hh | hh)
      · exact Or.inl hh.symm
      · exact Or.inr hh

theorem keys_replace (d : StrDict) (k : String) (v : PyVal) :
    pyKeys (d.map (fun kv => if kv.1 = k then (k, v) else kv)) = pyKeys d := by
  unfold pyKeys
  rw [List.map_map]
  congr 1
  funext kv
  by_cases h : kv.1 = k <;> simp [h]

theorem lookup_replace_ne (d : StrDict) (k : String) (v : PyVal) (n : String)
    (h : n ≠ k) :
    pyLookup (d.map (fun kv => if kv.1 = k then (k, v) else kv)) n = pyLookup d n := by
  induction d with
  | nil => rfl
  | cons kv t ih =>
    by_cases hk : kv.1 = k
    · have hkn : k ≠ n := fun hh => h hh.symm
      have hkvn : kv.1 ≠ n := by rw [hk]; exact hkn
      simp [pyLookup, hk, hkn, hkvn, ih]
    · by_cases hn : kv.1 = n <;> simp [pyLookup, hk, hn, h, ih]

theorem lookup_replace_eq (d : StrDict) (k : String) (v : PyVal)
    (h : k ∈ pyKeys d) :
    pyLookup (d.map (fun kv => if kv.1 = k then (k, v) else kv)) k = Option.some v := by
  induction d with
  | nil => simp [pyKeys] at h
  | cons kv t ih =>
    rw [pyKeys_cons] at h
    by_cases hk : kv.1 = k
    · simp [pyLookup, hk]
    · have h2 : k ∈ pyKeys t := by
        rcases List.mem_cons.mp h with h3 | h3
        · exact absurd h3.symm hk
        · exact h3
      simp [pyLookup, hk, ih h2]

theorem last_replace_ne (d : StrDict) (k : String) (v : PyVal) (n : String)
    (h : n ≠ k) :
    pyLookupLast (d.map (fun kv => if kv.1 = k then (k, v) else kv)) n =
      pyLookupLast d n := by
  induction d with
  | nil => rfl
  | cons kv t ih =>
    rw [List.map_cons, pyLookupLast_cons, pyLookupLast_cons, ih]
    by_cases hk : kv.1 = k
    · have hkn : k ≠ n := fun hh => h hh.symm
      have hkvn : kv.1 ≠ n := by rw [hk]; exact hkn
      simp [hk, hkn, hkvn]
    · rw [if_neg hk]

theorem last_replace_eq (d : StrDict) (k : String) (v : PyVal)
    (h : k ∈ pyKeys d) :
    pyLookupLast (d.map (fun kv => if kv.1 = k then (k, v) else kv)) k =
      Option.some v := by
  induction d with
  | nil => simp [pyKeys] at h
  | cons kv t ih =>
    rw [pyKeys_cons] at h
    rw [List.map_cons, pyLookupLast_cons]
    by_cases h2 : k ∈ pyKeys t
    · rw [ih h2]; rfl
    · have hk : kv.1 = k := by
        rcases List.mem_cons.mp h with h3 | h3
        · exact h3.symm
        · exact absurd h3 h2
      have h4 : k ∉ pyKeys (t.map (fun kv => if kv.1 = k then (k, v) else kv)) := by
        rw [keys_replace]; exact h2
      rw [pyLookupLast_eq_none_of_not_mem _ _ h4]
      simp [hk, pyOr]

theorem pyLookup_pyDictInsert (d : StrDict) (k : String) (v : PyVal) (n : String) :
    pyLookup (pyDictInsert d k v) n =
      if n = k then Option.some v else pyLookup d n := by
  unfold pyDictInsert
  by_cases hmem : d.any (fun kv => decide (kv.1 = k)) = true
  · rw [if_pos hmem]
    have hk : k ∈ pyKeys d := (keys_mem_iff d k).mp hmem
    by_cases hn : n = k
    · subst hn; rw [if_pos rfl]; exact lookup_replace_eq d n v hk
    · rw [if_neg hn]; exact lookup_replace_ne d k v n hn
  · rw [if_neg hmem]
    have hk : k ∉ pyKeys d := fun hh => hmem ((keys_mem_iff d k).mpr hh)
    rw [pyLookup_append]
    by_cases hn : n = k
    · subst hn
      rw [pyLookup_eq_none_of_not_mem d n hk]
      simp [pyLookup, pyOr]
    · have hn2 : ¬(k = n) := fun hh => hn hh.symm
      simp [pyLookup, hn, hn2, pyOr_none_right]

theorem pyLookupLast_pyDictInsert (d : StrDict) (k : String) (v : PyVal) (n : String) :
    pyLookupLast (pyDictInsert d k v) n =
      if n = k then Option.some v else pyLookupLast d n := by
  unfold pyDictInsert
  by_cases hmem : d.any (fun kv => decide (kv.1 = k)) = true
  · rw [if_pos hmem]
    have hk : k ∈ pyKeys d := (keys_mem_iff d k).mp hmem
    by_cases hn : n = k
    · subst hn; rw [if_pos rfl]; exact last_replace_eq d n v hk
    · rw [if_neg hn]; exact last_replace_ne d k v n hn
  · rw [if_neg hmem]
    have hk : k ∉ pyKeys d := fun hh => hmem ((keys_mem_iff d k).mpr hh)
    rw [pyLookupLast_append]
    by_cases hn : n = k
    · subst hn
      rw [if_pos rfl, pyLookupLast_eq_none_of_not_mem d n hk]
      simp [pyLookupLast, pyOr]
    · have hn2 : ¬(k = n) := fun hh => hn hh.symm
      rw [if_neg hn]
      have h5 : pyLookupLast [(k, v)] n = Option.none := by
        simp [pyLookupLast, hn2]
      rw [h5]
      rfl

theorem pyLookup_pyDictUpdate (d : StrDict) (o : List (String × PyVal)) (n : String) :
    pyLookup (pyDictUpdate d o) n = pyOr (pyLookupLast o n) (pyLookup d n) := by
  induction o generalizing d with
  | nil => rfl
  | cons kv t ih =>
    show pyLookup (pyDictUpdate (pyDictInsert d kv.1 kv.2) t) n = _
    rw [ih, pyLookup_pyDictInsert, pyLookupLast_cons, pyOr_assoc]
    by_cases h : n = kv.1
    · subst h
      simp [pyOr]
    · have h2 : ¬(kv.1 = n) := fun hh => h hh.symm
      simp [h, h2, pyOr]

theorem pyLookupLast_pyDictUpdate (d : StrDict) (o : List (String × PyVal)) (n : String) :
    pyLookupLast (pyDictUpdate d o) n = pyOr (pyLookupLast o n) (pyLookupLast d n) := by
  induction o generalizing d with
  | nil => rfl
  | cons kv t ih =>
    show pyLookupLast (pyDictUpdate (pyDictInsert d kv.1 kv.2) t) n = _
    rw [ih, pyLookupLast_pyDictInsert, pyLookupLast_cons, pyOr_assoc]
    by_cases h : n = kv.1
    · subst h
      simp [pyOr]
    · have h2 : ¬(kv.1 = n) := fun hh => h hh.symm
      simp [h, h2, pyOr]

theorem pyLookup_pyDictOf (ps : List (String × PyVal)) (n : String) :
    pyLookup (pyDictOf ps) n = pyLookupLast ps n := by
  show pyLookup (pyDictUpdate [] ps) n = _
  rw [pyLookup_pyDictUpdate]
  exact pyOr_none_right _

theorem pyLookupLast_pyDictOf (ps : List (String × PyVal)) (n : String) :
    pyLookupLast (pyDictOf ps) n = pyLookupLast ps n := by
  show pyLookupLast (pyDictUpdate [] ps) n = _
  rw [pyLookupLast_pyDictUpdate]
  exact pyOr_none_right _

theorem nodup_keys_pyDictInsert (d : StrDict) (k : String) (v : PyVal)
    (h : (pyKeys d).Nodup) : (pyKeys (pyDictInsert d k v)).Nodup := by
  unfold pyDictInsert
  by_cases hmem : d.any (fun kv => decide (kv.1 = k)) = true
  · rw [if_pos hmem, keys_replace]; exact h
  · rw [if_neg hmem]
    have hk : k ∉ pyKeys d := fun hh => hmem ((keys_mem_iff d k).mpr hh)
    have h2 : pyKeys (d ++ [(k, v)]) = pyKeys d ++ [k] := by simp [pyKeys]
    rw [h2, List.nodup_append]
    exact ⟨h, List.nodup_singleton k, by
      intro a ha hb
      rw [List.mem_singleton] at hb
      exact hk (hb ▸ ha)⟩

theorem nodup_keys_pyDictUpdate (d : StrDict) (o : List (String × PyVal))
    (h : (pyKeys d).Nodup) : (pyKeys (pyDictUpdate d o)).Nodup := by
  induction o generalizing d with
  | nil => exact h
  | cons kv t ih =>
    exact ih (pyDictInsert d kv.1 kv.2) (nodup_keys_pyDictInsert d kv.1 kv.2 h)

theorem nodup_keys_pyDictOf (ps : List (String × PyVal)) :
    (pyKeys (pyDictOf ps)).Nodup := by
  exact nodup_keys_pyDictUpdate [] ps List.nodup_nil

instance {ε α : Type} [DecidableEq ε] [DecidableEq α] : DecidableEq (Except ε α) :=
  fun a b =>
    match a, b with
    | .ok x, .ok y =>
      if h : x = y then Decidable.isTrue (congrArg Except.ok h)
      else Decidable.isFalse (fun hh => h (Except.ok.inj hh))
    | .error x, .error y =>
      if h : x = y then Decidable.isTrue (congrArg Except.error h)
      else Decidable.isFalse (fun hh => h (Except.error.inj hh))
    | .ok _, .error _ => Decidable.isFalse (fun hh => Except.noConfusion hh)
    | .error _, .ok _ => Decidable.isFalse (fun hh => Except.noConfusion hh)

theorem pyLookup_mem (d : StrDict) (k : String) (v : PyVal)
    (h : pyLookup d k = Option.some v) : (k, v) ∈ d := by
  induction d with
  | nil => exact absurd h (by simp [pyLookup])
  | cons kv t ih =>
    by_cases hk : kv.1 = k
    · have h2 : Option.some kv.2 = Option.some v := by
        rw [← h]; simp [pyLookup, hk]
      have h3 : kv = (k, v) := by
        cases kv
        simp_all
      rw [← h3]
      exact List.mem_cons_self _ _
    · have h2 : pyLookup t k = Option.some v := by
        rw [← h]; simp [pyLookup, hk]
      exact List.mem_cons_of_mem _ (ih h2)

theorem mem_pyKeys_of_mem (d : StrDict) (kv : String × PyVal) (h : kv ∈ d) :
    kv.1 ∈ pyKeys d :=
  List.mem_map_of_mem Prod.fst h

theorem pyLookup_of_mem_nodup (d : StrDict) (kv : String × PyVal)
    (hd : (pyKeys d).Nodup) (hm : kv ∈ d) :
    pyLookup d kv.1 = Option.some kv.2 := by
  induction d with
  | nil => exact absurd hm (List.not_mem_nil kv)
  | cons kv0 t ih =>
    rw [pyKeys_cons] at hd
    rcases List.mem_cons.mp hm with h1 | h1
    · subst h1
      simp [pyLookup]
    · have hk : kv0.1 ≠ kv.1 := by
        intro hh
        exact (List.nodup_cons.mp hd).1 (hh ▸ mem_pyKeys_of_mem t kv h1)
      simp [pyLookup, hk]
      exact ih (List.nodup_cons.mp hd).2 h1

theorem pyDictBeq_iff (d e : StrDict)
    (hd : (pyKeys d).Nodup) (he : (pyKeys e).Nodup) :
    pyDictBeq d e = true ↔ ∀ k, pyLookup d k = pyLookup e k := by
  constructor
  · intro h k
    rw [pyDictBeq, Bool.and_eq_true] at h
    obtain ⟨h1, h2⟩ := h
    rw [List.all_eq_true] at h1 h2
    cases hk : pyLookup d k with
    | some v =>
      have hmem : (k, v) ∈ d := pyLookup_mem d k v hk
      have h3 := of_decide_eq_true (h1 (k, v) hmem)
      rw [h3]
    | none =>
      cases hk2 : pyLookup e k with
      | none => rfl
      | some w =>
        have hmem : (k, w) ∈ e := pyLookup_mem e k w hk2
        have h3 := of_decide_eq_true (h2 (k, w) hmem)
        rw [hk] at h3
        exact absurd h3 (by simp)
  · intro h
    rw [pyDictBeq, Bool.and_eq_true]
    constructor <;> rw [List.all_eq_true]
    · intro kv hm
      have h3 : pyLookup d kv.1 = Option.some kv.2 :=
        pyLookup_of_mem_nodup d kv hd hm
      exact decide_eq_true ((h kv.1) ▸ h3)
    · intro kv hm
      have h3 : pyLookup e kv.1 = Option.some kv.2 :=
        pyLookup_of_mem_nodup e kv he hm
      refine decide_eq_true ?_
      rw [h kv.1]
      exact h3

theorem pyLookupLast_eq_pyLookup_of_nodup (d : StrDict)
    (h : (pyKeys d).Nodup) (n : String) : pyLookupLast d n = pyLookup d n := by
  induction d with
  | nil => rfl
  | cons kv t ih =>
    rw [pyKeys_cons] at h
    have hhead : kv.1 ∉ pyKeys t := (List.nodup_cons.mp h).1
    have htail : (pyKeys t).Nodup := (List.nodup_cons.mp h).2
    rw [pyLookupLast_cons, ih htail]
    by_cases hn : kv.1 = n
    · have hnt : n ∉ pyKeys t := hn ▸ hhead
      rw [pyLookup_eq_none_of_not_mem t n hnt]
      simp [pyLookup, hn, pyOr]
    · simp [pyLookup, hn, pyOr_none_right]

theorem assign_instance_arguments_lookup (sp : ArgsSpec) (args : List PyVal)
    (kwargs : StrDict) (n : String) :
    pyLookup (assign_instance_arguments sp args kwargs) n =
      pyOr (pyLookupLast kwargs n)
        (pyOr (pyLookupLast ((sp.args.drop 1).zip (args.map sanitize)) n)
          (pyLookupLast ((sp.args.drop 1).reverse.zip sp.defaults.reverse) n)) := by
  unfold assign_instance_arguments
  rw [pyLookup_pyDictUpdate, pyLookupLast_pyDictOf, pyLookupLast_append,
    pyLookup_pyDictOf, pyOr_assoc]

theorem pyLookupLast_replace_kwargs (kwargs : StrDict) (n : String) :
    pyLookupLast (replace_mutable_kwargs_with_immutable_types kwargs) n =
      Option.map sanitize (pyLookupLast kwargs n) :=
  pyLookupLast_map_sanitize kwargs n

theorem construct_ok_fields (cls : ClassDef) (sp : ArgsSpec)
    (args : List PyVal) (kwargs : StrDict) (inst : Instance)
    (hsig : cls.sig = Option.some sp)
    (hok : construct cls args kwargs = .ok inst) :
    inst = ⟨cls.name, sp.args, assign_instance_arguments sp args
      (replace_mutable_kwargs_with_immutable_types kwargs)⟩ := by
  unfold construct at hok
  rw [hsig] at hok
  simp only [] at hok
  cases hchk : check_class_initialization cls sp args kwargs with
  | error e => rw [hchk] at hok; exact absurd hok (by simp)
  | ok u =>
    rw [hchk] at hok
    simp only [] at hok
    cases hinv : check_invariants cls (assign_instance_arguments sp args
        (replace_mutable_kwargs_with_immutable_types kwargs)) with
    | error e => rw [hinv] at hok; exact absurd hok (by simp)
    | ok u2 =>
      rw [hinv] at hok
      simp only [] at hok
      injection hok with h
      exact h.symm

theorem construct_fields_nodup (cls : ClassDef) (sp : ArgsSpec)
    (args : List PyVal) (kwargs : StrDict) (inst : Instance)
    (hsig : cls.sig = Option.some sp)
    (hok : construct cls args kwargs = .ok inst) :
    (pyKeys inst.fields).Nodup := by
  rw [construct_ok_fields cls sp args kwargs inst hsig hok]
  exact nodup_keys_pyDictUpdate _ _ (nodup_keys_pyDictOf _)

/-!  Demonstration subtypes used to instantiate the claims.  The invariant
members carry a `text` field standing for `str(method)`.  Modelled from the
spec: the decorators that attach invariants to a subtype are not under `src/`;
per the spec a recognized parameter-invariant or general-invariant marker
occurs in the member rendering, so the model places the marker
`param_invariant_fn` or `invariant_fn` in `text` directly. -/

/-- A three-field subtype with a default on the trailing parameter. -/
def demoTripSpec : ArgsSpec := ⟨["self", "a", "b", "c"], [PyVal.int 30], false⟩

/-- The class carrying `demoTripSpec` and no invariants. -/
def demoTripCls : ClassDef := ⟨"Trip", Option.some demoTripSpec, []⟩

/-- The instance `Trip(1, b=2)` builds. -/
def demoTripInst : Instance :=
  ⟨"Trip", ["self", "a", "b", "c"],
    [("c", PyVal.int 30), ("a", PyVal.int 1), ("b", PyVal.int 2)]⟩

/-- A two-field subtype `Point(x, y)` with no invariants. -/
def pointCls : ClassDef := ⟨"Point", Option.some ⟨["self", "x", "y"], [], false⟩, []⟩

/-- The instance `Point(1, 2)` builds. -/
def pointInst : Instance :=
  ⟨"Point", ["self", "x", "y"], [("x", PyVal.int 1), ("y", PyVal.int 2)]⟩

/-- A second subtype `Dot(x, y)` with the same field names as `Point`. -/
def dotCls : ClassDef := ⟨"Dot", Option.some ⟨["self", "x", "y"], [], false⟩, []⟩

/-- The instance `Dot(1, 2)` builds. -/
def dotInst : Instance :=
  ⟨"Dot", ["self", "x", "y"], [("x", PyVal.int 1), ("y", PyVal.int 2)]⟩

/-- A parameter invariant that holds, stored under `p_rule_ok`. -/
def pInvMember : Member :=
  ⟨"p_rule_ok", "function param_invariant_fn of Demo", fun _ => PyVal.bool true⟩

/-- A general invariant that holds, stored under `g_rule_ok`. -/
def gInvMember : Member :=
  ⟨"g_rule_ok", "function invariant_fn of Demo", fun _ => PyVal.bool true⟩

/-- A subtype declaring one general and one parameter invariant; members in
the sorted order `getmembers` yields. -/
def invDemoCls : ClassDef :=
  ⟨"Demo", Option.some ⟨["self", "x"], [], false⟩, [gInvMember, pInvMember]⟩

/-- A parameter invariant that always fails, stored under `p_bad`. -/
def pBadMember : Member :=
  ⟨"p_bad", "function param_invariant_fn of Demo2", fun _ => PyVal.bool false⟩

/-- A subtype whose single parameter invariant fails. -/
def invDemoCls2 : ClassDef :=
  ⟨"Demo2", Option.some ⟨["self", "x"], [], false⟩, [pBadMember]⟩

/-- The general invariant `low_below_high` of the `Range` scenario: true when
the bound `low` is below the bound `high`. -/
def rangeLowBelowHigh : Member :=
  ⟨"low_below_high", "function invariant wrapper invariant_fn", fun d =>
    match pyLookup d "low", pyLookup d "high" with
    | Option.some (PyVal.int l), Option.some (PyVal.int h) =>
      PyVal.bool (decide (l < h))
    | _, _ => PyVal.none⟩

/-- The subtype `Range(low, high)` with the `low_below_high` invariant. -/
def rangeCls : ClassDef :=
  ⟨"Range", Option.some ⟨["self", "low", "high"], [], false⟩, [rangeLowBelowHigh]⟩

/-- A one-field subtype `PointA(x)`. -/
def pointACls : ClassDef := ⟨"PointA", Option.some ⟨["self", "x"], [], false⟩, []⟩

/-- A one-field subtype `PointB(x)`, structurally identical to `PointA`. -/
def pointBCls : ClassDef := ⟨"PointB", Option.some ⟨["self", "x"], [], false⟩, []⟩

/-- The instance `PointA(1)` builds. -/
def pointAInst : Instance := ⟨"PointA", ["self", "x"], [("x", PyVal.int 1)]⟩

/-- The instance `PointB(1)` builds. -/
def pointBInst : Instance := ⟨"PointB", ["self", "x"], [("x", PyVal.int 1)]⟩

/-- The subtype `Bag(items)` of the container scenario. -/
def bagCls : ClassDef := ⟨"Bag", Option.some ⟨["self", "items"], [], false⟩, []⟩

/-- A subtype whose constructor cannot be introspected. -/
def noSigCls : ClassDef := ⟨"Synthetic", Option.none, []⟩

/-- A subtype whose constructor declares no field beyond the
self-reference. -/
def emptyCls : ClassDef := ⟨"Empty", Option.some ⟨["self"], [], false⟩, []⟩

/-- A general invariant returning a non-boolean. -/
def badInvMember : Member :=
  ⟨"weird_check", "function invariant_fn of BadInv", fun _ => PyVal.int 3⟩

/-- A subtype whose single invariant returns a non-boolean. -/
def badInvCls : ClassDef :=
  ⟨"BadInv", Option.some ⟨["self", "x"], [], false⟩, [badInvMember]⟩

/-- Claim C1: on every construction call each declared field is bound with the
precedence: the named argument of that name (sanitized) if supplied, otherwise
the positional argument zipped to that name in declaration order (sanitized
the same way), otherwise the declared default of that trailing parameter. -/
theorem construct_binding_precedence (cls : ClassDef) (sp : ArgsSpec)
    (args : List PyVal) (kwargs : StrDict) (inst : Instance) (n : String)
    (hsig : cls.sig = Option.some sp)
    (hok : construct cls args kwargs = Except.ok inst) :
    pyLookup inst.fields n =
      pyOr (Option.map sanitize (pyLookupLast kwargs n))
        (pyOr (pyLookupLast ((sp.args.drop 1).zip (args.map sanitize)) n)
          (pyLookupLast ((sp.args.drop 1).reverse.zip sp.defaults.reverse) n)) := by
  rw [construct_ok_fields cls sp args kwargs inst hsig hok]
  show pyLookup (assign_instance_arguments sp args
    (replace_mutable_kwargs_with_immutable_types kwargs)) n = _
  rw [assign_instance_arguments_lookup, pyLookupLast_replace_kwargs]

/-- Witness for C1: `Trip(1, b=2)` binds `a` positionally, `b` by name and `c`
by its declared default. -/
theorem construct_binding_precedence_witness :
    pyLookup demoTripInst.fields "a" = Option.some (PyVal.int 1) ∧
    pyLookup demoTripInst.fields "b" = Option.some (PyVal.int 2) ∧
    pyLookup demoTripInst.fields "c" = Option.some (PyVal.int 30) := by
  have ha := construct_binding_precedence demoTripCls demoTripSpec
    [PyVal.int 1] [("b", PyVal.int 2)] demoTripInst "a" rfl (by decide)
  have hb := construct_binding_precedence demoTripCls demoTripSpec
    [PyVal.int 1] [("b", PyVal.int 2)] demoTripInst "b" rfl (by decide)
  have hc := construct_binding_precedence demoTripCls demoTripSpec
    [PyVal.int 1] [("b", PyVal.int 2)] demoTripInst "c" rfl (by decide)
  refine ⟨ha.trans (by decide), hb.trans (by decide), hc.trans (by decide)⟩

/-- Claim C2 counterexample: deleting a field of a constructed instance does
not fail with the cannot-be-changed error — the source intercepts only
attribute assignment, so the default deletion path removes the field. -/
theorem delete_not_intercepted :
    construct pointCls [PyVal.int 1, PyVal.int 2] [] = Except.ok pointInst ∧
    ValueObject.delattr pointInst "x" =
      Except.ok ⟨"Point", ["self", "x", "y"], [("y", PyVal.int 2)]⟩ ∧
    ValueObject.delattr pointInst "x" ≠ Except.error PyError.cannotBeChange := by
  refine ⟨by decide, by decide, by decide⟩

/-- Claim C2 (amended): every attempt to set a field of a constructed instance
fails with the cannot-be-changed error and never yields a modified instance,
so the field values are unchanged after each failed attempt; an attempt to
delete a field is not intercepted — it removes an existing field (and fails
with the attribute error only when the field is absent). -/
theorem setattr_always_fails (i : Instance) (n : String) (v : PyVal) :
    ValueObject.setattr i n v = Except.error PyError.cannotBeChange ∧
    (∀ j : Instance, ValueObject.setattr i n v ≠ Except.ok j) ∧
    ((pyLookup i.fields n).isSome = true →
      ValueObject.delattr i n =
        Except.ok { i with fields := pyDictErase i.fields n }) := by
  refine ⟨rfl, fun j hj => Except.noConfusion hj, fun hs => ?_⟩
  unfold ValueObject.delattr
  cases hl : pyLookup i.fields n with
  | some v2 => rfl
  | none => rw [hl] at hs; exact absurd hs (by simp)

/-- Witness for C2 (amended): setting `x` on `Point(1, 2)` fails with the
cannot-be-changed error while deleting `x` succeeds. -/
theorem setattr_always_fails_witness :
    ValueObject.setattr pointInst "x" (PyVal.int 9) =
      Except.error PyError.cannotBeChange ∧
    ValueObject.delattr pointInst "x" =
      Except.ok ⟨"Point", ["self", "x", "y"], [("y", PyVal.int 2)]⟩ := by
  have h := setattr_always_fails pointInst "x" (PyVal.int 9)
  exact ⟨h.1, (h.2.2 (by decide)).trans (by decide)⟩

/-- A parameter-invariant marker always matches the general-invariant
discovery predicate, because its marker string contains the general marker. -/
theorem param_invariant_is_general (m : Member)
    (h : is_param_invariant m = true) : is_invariant m = true := by
  unfold is_param_invariant is_invariant_method_with_name at h
  unfold is_invariant is_invariant_method_with_name
  rw [Bool.and_eq_true] at h ⊢
  refine ⟨?_, h.2⟩
  unfold pyIn at h ⊢
  have h1 : List.IsInfix ("param_invariant_fn".toList) (m.text.toList) :=
    of_decide_eq_true h.1
  have h2 : List.IsInfix ("invariant_fn".toList) ("param_invariant_fn".toList) := by
    decide
  exact decide_eq_true (h2.trans h1)

/-- Claim C3 counterexample: on a subtype declaring one parameter invariant
(`p_rule_ok`) and one general invariant (`g_rule_ok`), the discovered
execution sequence is `p_rule_ok, g_rule_ok, p_rule_ok`: the parameter
invariant executes twice — its marker contains the general marker as a
substring, so the general pass rediscovers it — and its second execution comes
after the general invariant.  This falsifies both "each discovered invariant
executes exactly once" and "all parameter invariants execute strictly before
all general invariants". -/
theorem obtain_invariants_runs_param_twice :
    ((obtain_invariants invDemoCls).map Member.name) =
      ["p_rule_ok", "g_rule_ok", "p_rule_ok"] ∧
    ((obtain_invariants invDemoCls).map Member.name).count "p_rule_ok" = 2 := by
  refine ⟨by decide, by decide⟩

/-- Claim C3 (amended): parameter invariants execute first in discovery order,
then every member matching the general marker — which includes each parameter
invariant a second time — executes in discovery order, and the first invariant
in that executed sequence to evaluate false determines the reported
violated-invariant error. -/
theorem check_invariants_first_failure :
    (∀ m : Member, is_param_invariant m = true → is_invariant m = true) ∧
    (∀ (cls : ClassDef) (m : Member), m ∈ cls.members →
      is_param_invariant m = true →
      2 ≤ ((obtain_invariants cls).map Member.name).count m.name) ∧
    (∀ (cls : ClassDef) (d : StrDict) (pre : List Member) (m : Member)
        (rest : List Member),
      obtain_invariants cls = pre ++ m :: rest →
      (∀ m2 ∈ pre, invariant_execute m2 d = Except.ok true) →
      invariant_execute m d = Except.ok false →
      check_invariants cls d =
        Except.error (.violatedInvariant (violation_message cls.name m.name))) := by
  refine ⟨param_invariant_is_general, ?_, ?_⟩
  · intro cls m hm hp
    unfold obtain_invariants
    rw [List.map_append, List.count_append]
    have c1 : 0 < (List.map Member.name (cls.members.filter is_param_invariant)).count m.name :=
      List.count_pos_iff.mpr
        (List.mem_map_of_mem Member.name (List.mem_filter.mpr ⟨hm, hp⟩))
    have c2 : 0 < (List.map Member.name (cls.members.filter is_invariant)).count m.name :=
      List.count_pos_iff.mpr
        (List.mem_map_of_mem Member.name
          (List.mem_filter.mpr ⟨hm, param_invariant_is_general m hp⟩))
    omega
  · intro cls d pre m rest hsplit hpre hm
    unfold check_invariants
    rw [hsplit]
    clear hsplit
    induction pre with
    | nil => simp only [List.nil_append, check_invariants_list, hm]
    | cons p t ih =>
      have hp : invariant_execute p d = Except.ok true :=
        hpre p (List.mem_cons_self _ _)
      simp only [List.cons_append, check_invariants_list, hp]
      exact ih (fun m2 hm2 => hpre m2 (List.mem_cons_of_mem _ hm2))

/-- Witness for C3 (amended): the parameter invariant of `Demo` is discovered
twice, and on `Demo2` — whose single parameter invariant fails — the reported
error names that first failing invariant. -/
theorem check_invariants_first_failure_witness :
    2 ≤ ((obtain_invariants invDemoCls).map Member.name).count "p_rule_ok" ∧
    check_invariants invDemoCls2 [("x", PyVal.int 1)] =
      Except.error (PyError.violatedInvariant
        "Value in Demo2 violates \"p bad\" invariant rule") := by
  refine ⟨?_, ?_⟩
  · exact check_invariants_first_failure.2.1 invDemoCls pInvMember
      (List.mem_cons_of_mem _ (List.mem_cons_self _ _)) (by decide)
  · have h := check_invariants_first_failure.2.2 invDemoCls2
      [("x", PyVal.int 1)] [] pBadMember [pBadMember] rfl
      (fun m2 hm2 => absurd hm2 (List.not_mem_nil m2)) (by decide)
    exact h.trans (by decide)

/-- Claim C4: `Range(5, 1)` fails with the violated-invariant error whose
message names the concrete type `Range` and the human-readable invariant name
"low below high" (underscores rendered as spaces). -/
theorem range_invariant_violation :
    construct rangeCls [PyVal.int 5, PyVal.int 1] [] =
      Except.error (PyError.violatedInvariant
        "Value in Range violates \"low below high\" invariant rule") ∧
    pyIn "Range" "Value in Range violates \"low below high\" invariant rule" = true ∧
    pyIn "low below high"
      "Value in Range violates \"low below high\" invariant rule" = true := by
  refine ⟨by decide, by decide, by decide⟩

/-- The `field=value` fragments depend only on the field mapping the instance
carries, looked up name by name. -/
theorem reprParts_congr (d1 d2 : StrDict)
    (h : ∀ k, pyLookup d1 k = pyLookup d2 k) :
    ∀ (l : List String), reprParts d1 l = reprParts d2 l := by
  intro l
  induction l with
  | nil => rfl
  | cons a t ih =>
    unfold reprParts
    rw [show pyGetattr d1 a = pyGetattr d2 a from by unfold pyGetattr; rw [h a]]
    rw [ih]

/-- Claim C5 counterexample: `PointA(1)` and `PointB(1)` are structurally
equal — the source equality returns True across the two concrete types — yet
their hashes differ, because the hashed canonical representation starts with
the type name. -/
theorem hash_differs_across_types :
    construct pointACls [PyVal.int 1] [] = Except.ok pointAInst ∧
    construct pointBCls [PyVal.int 1] [] = Except.ok pointBInst ∧
    ValueObject.eq pointAInst (Option.some pointBInst) = true ∧
    ValueObject.hash pointAInst ≠ ValueObject.hash pointBInst := by
  refine ⟨by decide, by decide, by decide, by decide⟩

/-- Claim C5 (amended): structurally equal instances of the same concrete type
(same type name and declared parameter list) have equal hashes, and the hash
is derived from the canonical string representation (type name plus
`field=value` pairs in declared parameter order); across different concrete
types the representations differ in the type name, so equal hashes are not
guaranteed for structurally equal instances. -/
theorem hash_eq_of_same_type_struct_eq (i1 i2 : Instance)
    (hc : i1.clsName = i2.clsName) (ha : i1.specArgs = i2.specArgs)
    (hf : ∀ k, pyLookup i1.fields k = pyLookup i2.fields k) :
    ValueObject.hash i1 = ValueObject.hash i2 ∧
    ValueObject.hash i1 = Except.map pyStrHash (ValueObject.repr i1) := by
  have hrepr : ValueObject.repr i1 = ValueObject.repr i2 := by
    unfold ValueObject.repr
    rw [hc, ha, reprParts_congr i1.fields i2.fields hf]
  constructor
  · unfold ValueObject.hash
    rw [hrepr]
  · unfold ValueObject.hash
    cases ValueObject.repr i1 <;> rfl

/-- Witness for C5 (amended): two instances with the same type name, declared
parameters and field mapping hash identically. -/
theorem hash_eq_of_same_type_struct_eq_witness :
    ValueObject.hash pointAInst = ValueObject.hash pointAInst ∧
    ValueObject.hash pointAInst = Except.ok (pyStrHash "PointA(x=1)") := by
  have h := hash_eq_of_same_type_struct_eq pointAInst pointAInst rfl rfl
    (fun k => rfl)
  exact ⟨h.1, h.2.trans (by decide)⟩

/-- Claim C6: two constructed instances — of the same or different concrete
type — are equal exactly when their field-name-to-value mappings are equal,
and no constructed instance is equal to the absent value. -/
theorem valueobject_eq_iff (cls1 cls2 : ClassDef) (sp1 sp2 : ArgsSpec)
    (args1 args2 : List PyVal) (kwargs1 kwargs2 : StrDict) (i1 i2 : Instance)
    (hs1 : cls1.sig = Option.some sp1) (hs2 : cls2.sig = Option.some sp2)
    (h1 : construct cls1 args1 kwargs1 = Except.ok i1)
    (h2 : construct cls2 args2 kwargs2 = Except.ok i2) :
    (ValueObject.eq i1 (Option.some i2) = true ↔
      ∀ k, pyLookup i1.fields k = pyLookup i2.fields k) ∧
    ValueObject.eq i1 Option.none = false := by
  refine ⟨?_, rfl⟩
  have hd1 := construct_fields_nodup cls1 sp1 args1 kwargs1 i1 hs1 h1
  have hd2 := construct_fields_nodup cls2 sp2 args2 kwargs2 i2 hs2 h2
  show pyDictBeq i1.fields i2.fields = true ↔ _
  exact pyDictBeq_iff i1.fields i2.fields hd1 hd2

/-- Witness for C6: `Point(1, 2)` and `Dot(1, 2)` have equal field mappings
and compare equal despite the different concrete types; neither equals the
absent value. -/
theorem valueobject_eq_iff_witness :
    ValueObject.eq pointInst (Option.some dotInst) = true ∧
    ValueObject.eq pointInst Option.none = false := by
  have h := valueobject_eq_iff pointCls dotCls
    ⟨["self", "x", "y"], [], false⟩ ⟨["self", "x", "y"], [], false⟩
    [PyVal.int 1, PyVal.int 2] [PyVal.int 1, PyVal.int 2] [] []
    pointInst dotInst rfl rfl (by decide) (by decide)
  exact ⟨h.1.mpr (fun k => rfl), h.2⟩

/-- Claim C7 counterexample: a list argument becomes a built-in tuple, and an
append attempt on that tuple fails with the attribute error — not with the
immutability error the claim asserts for both container kinds. -/
theorem tuple_mutation_error_not_immutability :
    sanitize (PyVal.list [PyVal.int 1, PyVal.int 2, PyVal.int 3]) =
      PyVal.tuple [PyVal.int 1, PyVal.int 2, PyVal.int 3] ∧
    tuple_mutate [PyVal.int 1, PyVal.int 2, PyVal.int 3]
      (SeqMutOp.append (PyVal.int 4)) = Except.error PyError.attributeError ∧
    PyError.attributeError ≠ PyError.cannotBeChange := by
  refine ⟨rfl, rfl, by decide⟩

/-- Claim C7 (amended): every mapping argument becomes an ImmutableDict with
identical key/value pairs, whose seven overridden mutation operations all fail
with the immutability error; every list or set argument becomes a fixed-order
tuple with the same elements, which supports no mutation operation — item
assignment and deletion fail with a type error and the mutating method calls
with an attribute error, neither being the immutability error. -/
theorem sanitize_containers (k : String) (es : List (PyVal × PyVal))
    (xs ys : List PyVal) (dop : DictMutOp) (sop : SeqMutOp) :
    replace_mutable_kwargs_with_immutable_types [(k, PyVal.dict es)] =
      [(k, PyVal.immutableDict es)] ∧
    sanitize (PyVal.list xs) = PyVal.tuple xs ∧
    sanitize (PyVal.set ys) = PyVal.tuple ys ∧
    immutableDict_mutate es dop = Except.error PyError.cannotBeChange ∧
    (∃ e : PyError, tuple_mutate xs sop = Except.error e ∧
      e ≠ PyError.cannotBeChange) := by
  refine ⟨rfl, rfl, rfl, rfl, ?_⟩
  cases sop <;>
    first
    | exact ⟨PyError.typeError, rfl, by decide⟩
    | exact ⟨PyError.attributeError, rfl, by decide⟩

/-- Claim C8 counterexample: constructing `Bag([[1]])` binds `items` to a
tuple whose single element is still a mutable list — sanitization does not
recurse, so the bound container field is not deeply non-mutable. -/
theorem nested_list_stays_mutable :
    construct bagCls [PyVal.list [PyVal.list [PyVal.int 1]]] [] =
      Except.ok ⟨"Bag", ["self", "items"],
        [("items", PyVal.tuple [PyVal.list [PyVal.int 1]])]⟩ ∧
    deeplyImmutable (PyVal.tuple [PyVal.list [PyVal.int 1]]) = false := by
  exact ⟨by decide, rfl⟩

/-- Claim C8 (amended): sanitization is shallow — it replaces only the
outermost container constructor and passes every nested value through
unchanged, so a nested mutable container survives inside the bound field (and
stays shared with any alias the caller holds). -/
theorem sanitize_is_shallow (inner : List PyVal) (es : List (PyVal × PyVal)) :
    construct bagCls [PyVal.list [PyVal.list inner]] [] =
      Except.ok ⟨"Bag", ["self", "items"],
        [("items", PyVal.tuple [PyVal.list inner])]⟩ ∧
    sanitize (PyVal.list [PyVal.dict es]) = PyVal.tuple [PyVal.dict es] := by
  exact ⟨rfl, rfl⟩

/-- Claim C9 counterexample: the signature-unavailable failure and the
no-declared-fields failure raise the same error kind
(NotDeclaredArgsException), so a caller catching at the granularity of the
specific kind cannot distinguish them. -/
theorem sig_and_nofields_same_error :
    construct noSigCls [] [] = Except.error PyError.notDeclaredArgs ∧
    construct emptyCls [] [] = Except.error PyError.notDeclaredArgs ∧
    construct noSigCls [] [] = construct emptyCls [] [] := by
  refine ⟨rfl, by decide, by decide⟩

/-- Claim C9 (amended): construction failures map onto four distinct catchable
error kinds — NotDeclaredArgs (shared by the signature-unavailable and the
no-declared-fields failures, which are therefore mutually indistinguishable),
ArgWithoutValue, ViolatedInvariant and InvariantReturnValue — and the
post-construction mutation failure CannotBeChange is distinct from all of
them. -/
theorem error_kinds_distinct :
    construct noSigCls [] [] = Except.error PyError.notDeclaredArgs ∧
    construct emptyCls [] [] = Except.error PyError.notDeclaredArgs ∧
    construct pointCls [PyVal.none, PyVal.int 2] [] =
      Except.error (PyError.argWithoutValue "Missing value for Point") ∧
    construct rangeCls [PyVal.int 5, PyVal.int 1] [] =
      Except.error (PyError.violatedInvariant
        "Value in Range violates \"low below high\" invariant rule") ∧
    construct badInvCls [PyVal.int 1] [] =
      Except.error PyError.invariantReturnValue ∧
    List.Nodup [PyError.notDeclaredArgs,
      PyError.argWithoutValue "Missing value for Point",
      PyError.violatedInvariant
        "Value in Range violates \"low below high\" invariant rule",
      PyError.invariantReturnValue, PyError.cannotBeChange] := by
  refine ⟨rfl, by decide, by decide, by decide, by decide, by decide⟩

/-- Claim C10: comparing a constructed instance against the absent value with
the inequality operation does not return the negation of the equality check —
equality returns False, so the negation would be True, but the inequality
operation dereferences the absent operand and fails with the attribute
error. -/
theorem ne_none_raises (i : Instance) :
    ValueObject.ne i Option.none = Except.error PyError.attributeError ∧
    ValueObject.eq i Option.none = false :=
  ⟨rfl, rfl⟩

end IVObject
